import Mathlib

/-!
Verification of the core normalization pipeline of the `autolog` log-parser
service (`logparser_service/enhanced_ml_parser.py`).

The Python module is shallowly embedded below: every method of
`EnhancedMLParser` that the claims touch is translated into an executable
Lean definition of the same name.  Python regular expressions are embedded
via a small backtracking regex engine (`Re`, `matchCore`): each Python
pattern literal is transcribed into a `Re` value next to a comment quoting
the original pattern.  Python `dict`s (insertion ordered, `update`
overwrites) become association lists with `dictInsert` / `dictUpdate`;
Python string truthiness becomes `truthyS`; a Python runtime fault
(`ZeroDivisionError`) is modelled by an `Option` result, `none` standing
for the raised exception.  The external template-mining engines are out of
scope for the source repository (they are third-party black boxes invoked
through scratch files); they are abstracted as a function argument
returning `Option (List MLRow)`, where `none` models both "engine raised"
and "no structured output artifact was produced", the two conditions the
Python code treats identically.  Machine floats (`0.7`, `0.8`, ratios) are
modelled as rationals.
-/

namespace Autolog

/-! ## String helpers (Python `str` operations over `List Char`) -/

/-- Python whitespace class for `str.strip` and the regex class `\s`
(ASCII part: space, tab, newline, carriage return, vertical tab, form feed). -/
def isWsChar (c : Char) : Bool :=
  c = ' ' || c = '\t' || c = '\n' || c = '\r' || c = Char.ofNat 11 || c = Char.ofNat 12

/-- Python `str.strip()`. -/
def pyStrip (s : String) : String :=
  String.mk (((s.data.dropWhile isWsChar).reverse.dropWhile isWsChar).reverse)

/-- Is `pre` a prefix of `l`? -/
def listPrefOf : List Char → List Char → Bool
  | [], _ => true
  | _ :: _, [] => false
  | p :: ps, c :: cs => p = c && listPrefOf ps cs

/-- Python `needle in hay` (substring containment). -/
def substrInChars (needle : List Char) : List Char → Bool
  | [] => listPrefOf needle []
  | c :: rest => listPrefOf needle (c :: rest) || substrInChars needle rest

/-- Python `needle in hay` on strings. -/
def substrIn (needle hay : String) : Bool :=
  substrInChars needle.data hay.data

/-- Python `s.startswith(pre)`. -/
def strStartsWith (s pre : String) : Bool :=
  listPrefOf pre.data s.data

/-- Python `s.endswith(suf)`. -/
def strEndsWith (s suf : String) : Bool :=
  listPrefOf suf.data.reverse s.data.reverse

/-- Python `s.lower()` (ASCII). -/
def lowerStr (s : String) : String :=
  String.mk (s.data.map Char.toLower)

/-- Python `s.upper()` (ASCII). -/
def upperStr (s : String) : String :=
  String.mk (s.data.map Char.toUpper)

/-- One step of Python `str.replace` (all non-overlapping occurrences,
left to right); `fuel` bounds the recursion by the string length. -/
def replaceFuel (pat rep : List Char) : Nat → List Char → List Char
  | 0, s => s
  | _ + 1, [] => []
  | fuel + 1, c :: rest =>
      if listPrefOf pat (c :: rest) then
        rep ++ replaceFuel pat rep fuel ((c :: rest).drop pat.length)
      else
        c :: replaceFuel pat rep fuel rest

/-- Python `s.replace(pat, rep)`; the module only calls it with non-empty
`pat` ("Z", "+00:00"), so the empty-pattern case just returns `s`. -/
def pyReplace (s pat rep : String) : String :=
  if pat = "" then s
  else String.mk (replaceFuel pat.data rep.data s.data.length s.data)

/-- Truthiness of an optional Python string: `None` and `""` are falsy. -/
def truthyS : Option String → Bool
  | none => false
  | some s => s ≠ ""

/-! ### Kernel-evaluable rational arithmetic

The library's `Rat.add`/`Rat.sub`/`Rat.div` are `@[irreducible]`, so the
module's float arithmetic is embedded through `Rat.divInt`, which
evaluates; `ratDiv_eq_div` and `ratSub_eq_sub` bridge to the ordinary
field operations for the order-theoretic proofs. -/

/-- Division of rationals, as an evaluable `divInt`. -/
def ratDiv (a b : Rat) : Rat := Rat.divInt (a.num * b.den) (a.den * b.num)

/-- Subtraction of rationals, as an evaluable `divInt`. -/
def ratSub (a b : Rat) : Rat :=
  Rat.divInt (a.num * b.den - b.num * a.den) (a.den * b.den)

theorem ratDiv_eq_div (a b : Rat) : ratDiv a b = a / b := by
  rcases eq_or_ne b 0 with hb | hb
  · subst hb
    simp [ratDiv]
  · have hbn : (b.num : Rat) ≠ 0 := by
      exact_mod_cast Rat.num_ne_zero.mpr hb
    have had : ((a.den : Rat)) ≠ 0 := by
      exact_mod_cast a.den_nz
    have hbd : ((b.den : Rat)) ≠ 0 := by
      exact_mod_cast b.den_nz
    have ha' : ((a.num : Rat)) = a * (a.den : Rat) := (div_eq_iff had).mp (Rat.num_div_den a)
    have hb' : ((b.num : Rat)) = b * (b.den : Rat) := (div_eq_iff hbd).mp (Rat.num_div_den b)
    rw [ratDiv, Rat.divInt_eq_div]
    push_cast
    rw [div_eq_div_iff (mul_ne_zero had hbn) hb, ha', hb']
    ring

theorem ratSub_eq_sub (a b : Rat) : ratSub a b = a - b := by
  have had : ((a.den : Rat)) ≠ 0 := by
    exact_mod_cast a.den_nz
  have hbd : ((b.den : Rat)) ≠ 0 := by
    exact_mod_cast b.den_nz
  have ha' : ((a.num : Rat)) = a * (a.den : Rat) := (div_eq_iff had).mp (Rat.num_div_den a)
  have hb' : ((b.num : Rat)) = b * (b.den : Rat) := (div_eq_iff hbd).mp (Rat.num_div_den b)
  rw [ratSub, Rat.divInt_eq_div]
  push_cast
  rw [div_eq_iff (mul_ne_zero had hbd), ha', hb']
  ring

/-! ## A small backtracking regex engine

Each Python pattern used by the module is transcribed into a `Re` value.
Semantics follow Python `re`: greedy quantifiers with backtracking,
alternation preferring the left branch, `.` not matching a newline,
`\b` a word/non-word boundary, `$`/full-anchoring via `eos`.
`re.IGNORECASE` is the `ci` flag of the matcher (case-folding literals
and character classes). -/

inductive Re where
  | eps
  | lit (c : Char)
  | cls (p : Char → Bool)
  | anyc
  | cat (a b : Re)
  | alt (a b : Re)
  | star (a : Re)
  | group (n : Nat) (a : Re)
  | wordb
  | eos

/-- Structural size of a pattern, used to bound the matcher's fuel. -/
def sizeRe : Re → Nat
  | .eps => 1
  | .lit _ => 1
  | .cls _ => 1
  | .anyc => 1
  | .cat a b => sizeRe a + sizeRe b + 1
  | .alt a b => sizeRe a + sizeRe b + 1
  | .star a => sizeRe a + 1
  | .group _ a => sizeRe a + 1
  | .wordb => 1
  | .eos => 1

/-- Does the pattern contain a capturing group (drives `findall`'s result shape)? -/
def hasGroupRe : Re → Bool
  | .cat a b => hasGroupRe a || hasGroupRe b
  | .alt a b => hasGroupRe a || hasGroupRe b
  | .star a => hasGroupRe a
  | .group _ _ => true
  | _ => false

abbrev Caps := List (Nat × String)

def setCap (n : Nat) (v : String) (caps : Caps) : Caps := (n, v) :: caps

def getCap (n : Nat) (caps : Caps) : Option String :=
  (caps.find? (fun p => p.1 = n)).map (fun p => p.2)

/-- Case-insensitive-aware literal comparison. -/
def ciEqChar (ci : Bool) (pat x : Char) : Bool :=
  if ci then pat.toLower = x.toLower else pat = x

/-- Case-insensitive-aware class membership (`re.IGNORECASE` case-folds). -/
def clsMatch (ci : Bool) (p : Char → Bool) (x : Char) : Bool :=
  p x || (ci && (p x.toLower || p x.toUpper))

/-- Python `\w`: ASCII letters, digits, underscore. -/
def isWordChar (c : Char) : Bool := c.isAlphanum || c = '_'

def isWordO : Option Char → Bool
  | none => false
  | some c => isWordChar c

/-- The character just before the current position, given the original
string `orig`, the remaining suffix `rest`, and the character before `orig`. -/
def prevAfter (orig rest : List Char) (prev : Option Char) : Option Char :=
  if rest.length = orig.length then prev
  else (orig.drop (orig.length - rest.length - 1)).head?

/-- The prefix of `s` consumed when `rest` remains. -/
def takeConsumed (s rest : List Char) : String :=
  String.mk (s.take (s.length - rest.length))

/-- Backtracking matcher: all ways the pattern can match a prefix of `s`,
in Python's preference order (head = the match `re` would pick).  `fuel`
bounds the recursion depth. -/
def matchCore (ci : Bool) : Nat → Re → List Char → Option Char → Caps →
    List (List Char × Caps)
  | 0, _, _, _, _ => []
  | _ + 1, .eps, s, _, caps => [(s, caps)]
  | _ + 1, .lit _, [], _, _ => []
  | _ + 1, .lit c, x :: rest, _, caps =>
      if ciEqChar ci c x then [(rest, caps)] else []
  | _ + 1, .cls _, [], _, _ => []
  | _ + 1, .cls p, x :: rest, _, caps =>
      if clsMatch ci p x then [(rest, caps)] else []
  | _ + 1, .anyc, [], _, _ => []
  | _ + 1, .anyc, x :: rest, _, caps =>
      if x = '\n' then [] else [(rest, caps)]
  | fuel + 1, .cat a b, s, prev, caps =>
      (matchCore ci fuel a s prev caps).flatMap (fun pr =>
        matchCore ci fuel b pr.1 (prevAfter s pr.1 prev) pr.2)
  | fuel + 1, .alt a b, s, prev, caps =>
      matchCore ci fuel a s prev caps ++ matchCore ci fuel b s prev caps
  | fuel + 1, .star a, s, prev, caps =>
      ((matchCore ci fuel a s prev caps).flatMap (fun pr =>
        if pr.1.length < s.length then
          matchCore ci fuel (.star a) pr.1 (prevAfter s pr.1 prev) pr.2
        else [(pr.1, pr.2)]))
      ++ [(s, caps)]
  | fuel + 1, .group n a, s, prev, caps =>
      (matchCore ci fuel a s prev caps).map (fun pr =>
        (pr.1, setCap n (takeConsumed s pr.1) pr.2))
  | _ + 1, .wordb, s, prev, caps =>
      if (isWordO prev != isWordO s.head?) then [(s, caps)] else []
  | _ + 1, .eos, s, _, caps => if s.isEmpty then [(s, caps)] else []

/-- Fuel that always suffices: recursion depth is bounded by the pattern
size times the string length. -/
def reFuel (r : Re) (s : List Char) : Nat :=
  (sizeRe r + 2) * (s.length + 2) + 16

/-- `re.match` at a fixed position: the preferred match, as
(matched text, captures). -/
def reMatchAtChars (ci : Bool) (r : Re) (s : List Char) (prev : Option Char) :
    Option (String × Caps) :=
  (matchCore ci (reFuel r s) r s prev []).head?.map (fun pr =>
    (takeConsumed s pr.1, pr.2))

/-- `re.match(pattern, s)` as a Bool (anchored at the start). -/
def reMatchB (ci : Bool) (r : Re) (s : String) : Bool :=
  (reMatchAtChars ci r s.data none).isSome

/-- `re.search`: first position with a match, scanning left to right. -/
def reSearchFrom (ci : Bool) (r : Re) : List Char → Option Char →
    Option (String × Caps)
  | s, prev =>
    match reMatchAtChars ci r s prev with
    | some m => some m
    | none =>
        match s with
        | [] => none
        | c :: rest => reSearchFrom ci r rest (some c)

def reSearch (ci : Bool) (r : Re) (s : String) : Option (String × Caps) :=
  reSearchFrom ci r s.data none

def reSearchB (ci : Bool) (r : Re) (s : String) : Bool :=
  (reSearch ci r s).isSome

/-- `re.findall`: non-overlapping matches left to right; per Python, the
result per match is group 1 when the pattern has a group, else the whole
match; a zero-width match advances by one character. -/
def reFindAllAux (ci : Bool) (r : Re) (hasGrp : Bool) :
    Nat → List Char → Option Char → List String
  | 0, _, _ => []
  | fuel + 1, s, prev =>
    match reMatchAtChars ci r s prev with
    | some (txt, caps) =>
        let value := if hasGrp then (getCap 1 caps).getD "" else txt
        let consumed := txt.length
        if consumed = 0 then
          match s with
          | [] => [value]
          | c :: rest => value :: reFindAllAux ci r hasGrp fuel rest (some c)
        else
          value :: reFindAllAux ci r hasGrp fuel (s.drop consumed)
            (prevAfter s (s.drop consumed) prev)
    | none =>
        match s with
        | [] => []
        | c :: rest => reFindAllAux ci r hasGrp fuel rest (some c)

def reFindAll (ci : Bool) (r : Re) (s : String) : List String :=
  reFindAllAux ci r (hasGroupRe r) (s.data.length + 1) s.data none

/-! ### Pattern combinators -/

def rcat (l : List Re) : Re := l.foldr Re.cat Re.eps

def alts : List Re → Re
  | [] => Re.eps
  | [r] => r
  | r :: rest => Re.alt r (alts rest)

def rstr (s : String) : Re := rcat (s.data.map Re.lit)

def ropt (r : Re) : Re := Re.alt r Re.eps

def rplus (r : Re) : Re := Re.cat r (Re.star r)

def repN : Nat → Re → Re
  | 0, _ => Re.eps
  | n + 1, r => Re.cat r (repN n r)

/-- Greedy `{0,n}` (prefer more repetitions). -/
def upTo : Nat → Re → Re
  | 0, _ => Re.eps
  | n + 1, r => Re.alt (Re.cat r (upTo n r)) Re.eps

def rdigit : Re := Re.cls Char.isDigit

def rws : Re := Re.cls isWsChar

def dN (n : Nat) : Re := repN n rdigit

def dplus : Re := rplus rdigit

/-! ## Transcribed patterns

Each definition quotes the Python pattern literal it embeds. -/

/-- Python: `\d{4}-\d{2}-\d{2}T\d{2}:\d{2}:\d{2}(?:\.\d+)?(?:Z|[+-]\d{2}:?\d{2})` -/
def ts_pat1 : Re :=
  rcat [dN 4, .lit '-', dN 2, .lit '-', dN 2, .lit 'T', dN 2, .lit ':', dN 2, .lit ':', dN 2,
    ropt (rcat [.lit '.', dplus]),
    .alt (.lit 'Z') (rcat [.cls (fun c => c = '+' || c = '-'), dN 2, ropt (.lit ':'), dN 2])]

/-- Python: `\d{4}-\d{2}-\d{2} \d{2}:\d{2}:\d{2}(?:\.\d+)?` -/
def ts_pat2 : Re :=
  rcat [dN 4, .lit '-', dN 2, .lit '-', dN 2, .lit ' ', dN 2, .lit ':', dN 2, .lit ':', dN 2,
    ropt (rcat [.lit '.', dplus])]

/-- Python: `\[(\d{4}-\d{2}-\d{2} \d{2}:\d{2}:\d{2})\]` -/
def ts_pat3 : Re :=
  rcat [.lit '[',
    .group 1 (rcat [dN 4, .lit '-', dN 2, .lit '-', dN 2, .lit ' ', dN 2, .lit ':', dN 2,
      .lit ':', dN 2]),
    .lit ']']

/-- Python: `(\d{2}/\d{2}/\d{4} \d{2}:\d{2}:\d{2})` -/
def ts_pat4 : Re :=
  .group 1 (rcat [dN 2, .lit '/', dN 2, .lit '/', dN 4, .lit ' ', dN 2, .lit ':', dN 2,
    .lit ':', dN 2])

/-- The `timestamp_patterns` list (identical in
`extract_structured_fields_from_ml_content` and `_extract_timestamp`). -/
def timestamp_patterns : List Re := [ts_pat1, ts_pat2, ts_pat3, ts_pat4]

/-- The level-keyword alternation `DEBUG|INFO|WARN|WARNING|ERROR|FATAL|CRITICAL|TRACE`. -/
def levelAlt : Re :=
  alts [rstr "DEBUG", rstr "INFO", rstr "WARN", rstr "WARNING", rstr "ERROR", rstr "FATAL",
    rstr "CRITICAL", rstr "TRACE"]

/-- Python: `\b(DEBUG|INFO|WARN|WARNING|ERROR|FATAL|CRITICAL|TRACE)\b` -/
def lvl_pat1 : Re := rcat [.wordb, .group 1 levelAlt, .wordb]

/-- Python: `\[(DEBUG|INFO|WARN|WARNING|ERROR|FATAL|CRITICAL|TRACE)\]` -/
def lvl_pat2 : Re := rcat [.lit '[', .group 1 levelAlt, .lit ']']

/-- Python: `level[=:]\s*(DEBUG|INFO|WARN|WARNING|ERROR|FATAL|CRITICAL|TRACE)` -/
def lvl_pat3 : Re :=
  rcat [rstr "level", .cls (fun c => c = '=' || c = ':'), .star rws, .group 1 levelAlt]

/-- The `level_patterns` list (identical in
`extract_structured_fields_from_ml_content` and `_extract_level`);
matched with `re.IGNORECASE`. -/
def level_patterns : List Re := [lvl_pat1, lvl_pat2, lvl_pat3]

/-- `\d{1,3}` (greedy, backtracking). -/
def d13 : Re := .cat rdigit (upTo 2 rdigit)

/-- Python: `\b(?:\d{1,3}\.){3}\d{1,3}\b` (used both by
`detect_log_characteristics` for `has_ips` and as the `ip_address`
metadata pattern). -/
def ip_re : Re := rcat [.wordb, repN 3 (rcat [d13, .lit '.']), d13, .wordb]

/-- Python: `\b(?:GET|POST|PUT|DELETE|PATCH|HEAD|OPTIONS)\s+([^\s]+)` -/
def httpPath_re : Re :=
  rcat [.wordb,
    alts [rstr "GET", rstr "POST", rstr "PUT", rstr "DELETE", rstr "PATCH", rstr "HEAD",
      rstr "OPTIONS"],
    rplus rws, .group 1 (rplus (.cls (fun c => !isWsChar c)))]

/-- Python: `\b(\d{3})\s+(?:OK|ERROR|NOT_FOUND|FORBIDDEN|UNAUTHORIZED|BAD_REQUEST|INTERNAL_SERVER_ERROR)` -/
def httpStatus_re : Re :=
  rcat [.wordb, .group 1 (dN 3), rplus rws,
    alts [rstr "OK", rstr "ERROR", rstr "NOT_FOUND", rstr "FORBIDDEN", rstr "UNAUTHORIZED",
      rstr "BAD_REQUEST", rstr "INTERNAL_SERVER_ERROR"]]

/-- `key[=:]\s*(<value class>)` — the shared shape of the key/value
metadata patterns. -/
def kvPat (key : String) (valCls : Re) : Re :=
  rcat [rstr key, .cls (fun c => c = '=' || c = ':'), .star rws, .group 1 valCls]

/-- `[a-zA-Z0-9-_]+` / `[a-zA-Z0-9_-]+` (same character set). -/
def rident : Re := rplus (.cls (fun c => c.isAlphanum || c = '-' || c = '_'))

/-- `[0-9.]+` -/
def rnumdot : Re := rplus (.cls (fun c => c.isDigit || c = '.'))

/-- `[^\s]+` -/
def rnotws : Re := rplus (.cls (fun c => !isWsChar c))

/-- `[a-zA-Z0-9_]+` -/
def identus : Re := rplus (.cls (fun c => c.isAlphanum || c = '_'))

/-- `[a-zA-Z0-9_.]+` -/
def identdot : Re := rplus (.cls (fun c => c.isAlphanum || c = '_' || c = '.'))

/-- Python: `https?://[^\s]+` -/
def url_re : Re :=
  rcat [rstr "http", ropt (.lit 's'), rstr "://", rplus (.cls (fun c => !isWsChar c))]

/-- `[A-Z|a-z]` (note: the class literally includes the pipe character). -/
def emailTldCls : Re := .cls (fun c => c.isAlpha || c = '|')

/-- Python: `\b[A-Za-z0-9._%+-]+@[A-Za-z0-9.-]+\.[A-Z|a-z]{2,}\b` -/
def email_re : Re :=
  rcat [.wordb,
    rplus (.cls (fun c => c.isAlphanum || c = '.' || c = '_' || c = '%' || c = '+' || c = '-')),
    .lit '@',
    rplus (.cls (fun c => c.isAlphanum || c = '.' || c = '-')),
    .lit '.', emailTldCls, emailTldCls, .star emailTldCls, .wordb]

/-- `[0-9a-f]` (lowercase hex digit). -/
def hexl : Re := .cls (fun c => c.isDigit || (c ≥ 'a' && c ≤ 'f'))

/-- Python: `\b[0-9a-f]{8}-[0-9a-f]{4}-[0-9a-f]{4}-[0-9a-f]{4}-[0-9a-f]{12}\b`
(the `uuid` metadata pattern). -/
def uuid_meta_re : Re :=
  rcat [.wordb, repN 8 hexl, .lit '-', repN 4 hexl, .lit '-', repN 4 hexl, .lit '-',
    repN 4 hexl, .lit '-', repN 12 hexl, .wordb]

/-- Python: `[0-9a-f]{8}-[0-9a-f]{4}-[0-9a-f]{4}-[0-9a-f]{4}-[0-9a-f]{12}`
(the `has_uuids` pattern in `detect_log_characteristics`, without word
boundaries). -/
def uuid_detect_re : Re :=
  rcat [repN 8 hexl, .lit '-', repN 4 hexl, .lit '-', repN 4 hexl, .lit '-', repN 4 hexl,
    .lit '-', repN 12 hexl]

/-- The 23 `(pattern, field_name)` pairs of
`extract_structured_fields_from_ml_content`, in source order; all are
applied with `re.findall(…, re.IGNORECASE)`. -/
def metadata_patterns : List (Re × String) :=
  [ (ip_re, "ip_address"),
    (httpPath_re, "http_path"),
    (httpStatus_re, "http_status"),
    (kvPat "request_id" rident, "request_id"),
    (kvPat "correlation_id" rident, "correlation_id"),
    (kvPat "execution_time" rnumdot, "execution_time"),
    (kvPat "error_code" rident, "error_code"),
    (kvPat "user" rident, "user"),
    (kvPat "container" rident, "container"),
    (kvPat "pod" rident, "pod"),
    (kvPat "namespace" rident, "namespace"),
    (kvPat "file" rnotws, "file_path"),
    (kvPat "line" dplus, "line_number"),
    (kvPat "function" identus, "function_name"),
    (kvPat "module" identdot, "module_name"),
    (kvPat "process_id" dplus, "process_id"),
    (kvPat "thread_id" dplus, "thread_id"),
    (kvPat "duration" rnumdot, "duration"),
    (kvPat "size" dplus, "size"),
    (kvPat "count" dplus, "count"),
    (url_re, "url"),
    (email_re, "email"),
    (uuid_meta_re, "uuid") ]

/-- Python: `\d{4}-\d{2}-\d{2}` (the `has_timestamps` flag). -/
def date_re : Re := rcat [dN 4, .lit '-', dN 2, .lit '-', dN 2]

/-- `[0-9a-fA-F]` -/
def hexAny : Re :=
  .cls (fun c => c.isDigit || (c ≥ 'a' && c ≤ 'f') || (c ≥ 'A' && c ≤ 'F'))

/-- Python: `[0-9a-fA-F]{8,}` (the `has_hex` flag). -/
def hex8_re : Re := rcat [repN 8 hexAny, .star hexAny]

/-! ## `datetime.strptime` / `isoformat` emulation for `normalize_timestamp`

CPython's `_strptime` compiles a format string into a regex; the directive
regexes below are transcribed from CPython (`%m` is `1[0-2]|0[1-9]|[1-9]`,
etc.).  A successful regex match is then validated the way the `datetime`
constructor would (year ≥ 1, day within the month), and rendered with
`datetime.isoformat()` formatting. -/

structure PyDateTime where
  year : Nat
  month : Nat
  day : Nat
  hour : Nat
  minute : Nat
  second : Nat
  microsecond : Nat
  /-- UTC-offset minutes when the parsed value is timezone-aware. -/
  tzmin : Option Int
deriving DecidableEq, Repr

/-- CPython `_strptime` directive regexes (only the directives the module's
format list uses). Group numbers: 1 = Y, 2 = m, 3 = d, 4 = H, 5 = M, 6 = S,
7 = f, 8 = z. -/
def directiveRe : Char → Option Re
  | 'Y' => some (.group 1 (dN 4))
  | 'm' => some (.group 2 (alts
      [rcat [.lit '1', .cls (fun c => c ≥ '0' && c ≤ '2')],
       rcat [.lit '0', .cls (fun c => c ≥ '1' && c ≤ '9')],
       .cls (fun c => c ≥ '1' && c ≤ '9')]))
  | 'd' => some (.group 3 (alts
      [rcat [.lit '3', .cls (fun c => c = '0' || c = '1')],
       rcat [.cls (fun c => c = '1' || c = '2'), rdigit],
       rcat [.lit '0', .cls (fun c => c ≥ '1' && c ≤ '9')],
       .cls (fun c => c ≥ '1' && c ≤ '9')]))
  | 'H' => some (.group 4 (alts
      [rcat [.lit '2', .cls (fun c => c ≥ '0' && c ≤ '3')],
       rcat [.cls (fun c => c = '0' || c = '1'), rdigit],
       rdigit]))
  | 'M' => some (.group 5 (alts [rcat [.cls (fun c => c ≥ '0' && c ≤ '5'), rdigit], rdigit]))
  | 'S' => some (.group 6 (alts
      [rcat [.lit '6', .cls (fun c => c = '0' || c = '1')],
       rcat [.cls (fun c => c ≥ '0' && c ≤ '5'), rdigit],
       rdigit]))
  | 'f' => some (.group 7 (rcat [rdigit, upTo 5 rdigit]))
  | 'z' => some (.group 8 (.alt
      (rcat [.cls (fun c => c = '+' || c = '-'), dN 2, ropt (.lit ':'), dN 2,
        ropt (rcat [ropt (.lit ':'), dN 2, ropt (rcat [.lit '.', rdigit, upTo 5 rdigit])])])
      (.lit 'Z')))
  | _ => none

/-- Compile a `strptime` format string to a regex; `none` models the
`ValueError` raised for an unsupported directive (which the caller's
`except ValueError: continue` swallows). -/
def fmtToRe : List Char → Option Re
  | [] => some .eps
  | '%' :: d :: rest =>
      match directiveRe d with
      | some r => (fmtToRe rest).map (fun r2 => .cat r r2)
      | none => none
  | ['%'] => none
  | c :: rest => (fmtToRe rest).map (fun r2 => .cat (.lit c) r2)

def charDigit (c : Char) : Nat := c.toNat - '0'.toNat

def parseNatChars (l : List Char) : Nat :=
  l.foldl (fun acc c => 10 * acc + charDigit c) 0

def parseNatStr (s : String) : Nat := parseNatChars s.data

def isLeapYear (y : Nat) : Bool :=
  y % 4 = 0 && (y % 100 ≠ 0 || y % 400 = 0)

def daysInMonth (y m : Nat) : Nat :=
  if m = 2 then (if isLeapYear y then 29 else 28)
  else if m = 4 || m = 6 || m = 9 || m = 11 then 30
  else 31

/-- Pad a fraction-of-second capture on the right to six digits
(`"5"` means 500000 microseconds). -/
def padRight6 (s : String) : String :=
  String.mk (s.data ++ List.replicate (6 - s.data.length) '0')

/-- Parse a `%z` capture into offset minutes (`"Z"` is UTC; a possible
seconds component beyond `±HH:MM` is ignored — the module's inputs never
carry one). -/
def parseOffset (s : String) : Int :=
  if s = "Z" then 0
  else
    let ds := s.data.filter Char.isDigit
    let hh := parseNatChars (ds.take 2)
    let mm := parseNatChars ((ds.drop 2).take 2)
    let total : Int := Int.ofNat (hh * 60 + mm)
    if s.data.head? = some '-' then -total else total

/-- Validate matched components the way `datetime.__new__` does and build
the value; `none` models the `ValueError` the caller catches. -/
def buildDateTime (caps : Caps) : Option PyDateTime :=
  let y := ((getCap 1 caps).map parseNatStr).getD 1900
  let m := ((getCap 2 caps).map parseNatStr).getD 1
  let d := ((getCap 3 caps).map parseNatStr).getD 1
  let hh := ((getCap 4 caps).map parseNatStr).getD 0
  let mi := ((getCap 5 caps).map parseNatStr).getD 0
  let ss := ((getCap 6 caps).map parseNatStr).getD 0
  let f := match getCap 7 caps with
    | none => 0
    | some fs => parseNatStr (padRight6 fs)
  let tz := (getCap 8 caps).map parseOffset
  if 1 ≤ y && d ≤ daysInMonth y m && ss ≤ 59 then
    some ⟨y, m, d, hh, mi, ss, f, tz⟩
  else
    none

/-- `datetime.strptime(s, fmt)`: CPython takes the regex's preferred match
and errors unless it consumed the whole string. -/
def strptime (fmt s : String) : Option PyDateTime :=
  match fmtToRe fmt.data with
  | none => none
  | some r =>
      match reMatchAtChars false r s.data none with
      | some (txt, caps) => if txt.length = s.length then buildDateTime caps else none
      | none => none

def padZeros (w n : Nat) : String :=
  let s := toString n
  String.mk (List.replicate (w - s.data.length) '0' ++ s.data)

/-- `datetime.isoformat()`: microseconds only when non-zero, offset as
`±HH:MM` when timezone-aware. -/
def isoformatDT (dt : PyDateTime) : String :=
  padZeros 4 dt.year ++ "-" ++ padZeros 2 dt.month ++ "-" ++ padZeros 2 dt.day ++ "T" ++
    padZeros 2 dt.hour ++ ":" ++ padZeros 2 dt.minute ++ ":" ++ padZeros 2 dt.second ++
    (if dt.microsecond = 0 then "" else "." ++ padZeros 6 dt.microsecond) ++
    (match dt.tzmin with
     | none => ""
     | some off =>
         (if off < 0 then "-" else "+") ++ padZeros 2 (off.natAbs / 60) ++ ":" ++
           padZeros 2 (off.natAbs % 60))

def parse2Digits : List Char → Option (Nat × List Char)
  | a :: b :: rest =>
      if a.isDigit && b.isDigit then some (charDigit a * 10 + charDigit b, rest) else none
  | _ => none

def parse4Digits : List Char → Option (Nat × List Char)
  | a :: b :: c :: d :: rest =>
      if a.isDigit && b.isDigit && c.isDigit && d.isDigit then
        some (((charDigit a * 10 + charDigit b) * 10 + charDigit c) * 10 + charDigit d, rest)
      else none
  | _ => none

def expectChar (c : Char) : List Char → Option (List Char)
  | x :: rest => if x = c then some rest else none
  | [] => none

/-- Fractional seconds of `fromisoformat`: exactly 3 or 6 digits after
`.` or `,`. -/
def parseIsoFrac : List Char → Option (Nat × List Char)
  | l =>
      let ds := l.takeWhile Char.isDigit
      let rest := l.dropWhile Char.isDigit
      if ds.length = 6 then some (parseNatChars ds, rest)
      else if ds.length = 3 then some (parseNatChars ds * 1000, rest)
      else none

/-- Optional `±HH:MM[:SS]` timezone suffix of `fromisoformat` (the
trailing seconds, when present, are ignored for the offset value). -/
def parseIsoTz : List Char → Option (Option Int × List Char)
  | [] => some (none, [])
  | c :: rest =>
      if c = '+' || c = '-' then
        match parse2Digits rest with
        | none => none
        | some (hh, r1) =>
            match expectChar ':' r1 with
            | none => none
            | some r2 =>
                match parse2Digits r2 with
                | none => none
                | some (mm, r3) =>
                    let off : Int := Int.ofNat (hh * 60 + mm)
                    let off := if c = '-' then -off else off
                    match r3 with
                    | ':' :: r4 =>
                        match parse2Digits r4 with
                        | some (_, r5) => some (some off, r5)
                        | none => none
                    | _ => some (some off, r3)
      else none

/-- Optional `[:MM[:SS[.ffffff]]]` tail of the time part. -/
def parseIsoTimeTail : List Char → Option (Nat × Nat × Nat × List Char)
  | ':' :: r1 =>
      match parse2Digits r1 with
      | none => none
      | some (mi, r2) =>
          match r2 with
          | ':' :: r3 =>
              match parse2Digits r3 with
              | none => none
              | some (ss, r4) =>
                  match r4 with
                  | '.' :: r5 =>
                      (parseIsoFrac r5).map (fun pr => (mi, ss, pr.1, pr.2))
                  | ',' :: r5 =>
                      (parseIsoFrac r5).map (fun pr => (mi, ss, pr.1, pr.2))
                  | _ => some (mi, ss, 0, r4)
          | _ => some (mi, 0, 0, r2)
  | l => some (0, 0, 0, l)

/-- `datetime.fromisoformat` (the strict pre-3.11 grammar:
`YYYY-MM-DD[<sep>HH[:MM[:SS[.fff[fff]]]][±HH:MM[:SS]]]`). -/
def fromisoformatDT (s : String) : Option PyDateTime :=
  match parse4Digits s.data with
  | none => none
  | some (y, r1) =>
      match expectChar '-' r1 with
      | none => none
      | some r2 =>
          match parse2Digits r2 with
          | none => none
          | some (m, r3) =>
              match expectChar '-' r3 with
              | none => none
              | some r4 =>
                  match parse2Digits r4 with
                  | none => none
                  | some (d, r5) =>
                      let core : Option (Nat × Nat × Nat × Nat × Option Int) :=
                        match r5 with
                        | [] => some (0, 0, 0, 0, none)
                        | _ :: r6 =>
                            match parse2Digits r6 with
                            | none => none
                            | some (hh, r7) =>
                                match parseIsoTimeTail r7 with
                                | none => none
                                | some (mi, ss, f, r8) =>
                                    match parseIsoTz r8 with
                                    | some (tz, []) => some (hh, mi, ss, f, tz)
                                    | _ => none
                      match core with
                      | none => none
                      | some (hh, mi, ss, f, tz) =>
                          if 1 ≤ y && 1 ≤ m && m ≤ 12 && 1 ≤ d && d ≤ daysInMonth y m &&
                              hh ≤ 23 && mi ≤ 59 && ss ≤ 59 then
                            some ⟨y, m, d, hh, mi, ss, f, tz⟩
                          else none

/-- The `formats` list of `normalize_timestamp`, verbatim. -/
def strptimeFormats : List String :=
  ["%Y-%m-%dT%H:%M:%S.%fZ", "%Y-%m-%dT%H:%M:%SZ", "%Y-%m-%dT%H:%M:%S.%f", "%Y-%m-%dT%H:%M:%S",
   "%Y-%m-%d %H:%M:%S.%f", "%Y-%m-%d %H:%M:%S", "%Y-%m-%d %H:%M:%S.%f%z", "%Y-%m-%d %H:%M:%S%z"]

/-- `EnhancedMLParser.normalize_timestamp`: `None` only for an empty
input; otherwise the first parsing format wins, then `fromisoformat` is
tried, and on total failure the raw matched text is returned unchanged. -/
def normalize_timestamp (timestamp_str : String) : Option String :=
  if timestamp_str = "" then none
  else
    let ts_clean := pyReplace (pyReplace timestamp_str "Z" "") "+00:00" ""
    match strptimeFormats.findSome? (fun fmt => (strptime fmt ts_clean).map isoformatDT) with
    | some iso => some iso
    | none =>
        match fromisoformatDT (pyReplace timestamp_str "Z" "+00:00") with
        | some dt => some (isoformatDT dt)
        | none => some timestamp_str

/-! ## Data model: log entries and Python-dict metadata -/

/-- A metadata value: the module stores strings, numbers
(`ml_confidence`), and lists of strings (multi-match `findall` results). -/
inductive MetaVal where
  | str (s : String)
  | num (q : Rat)
  | list (l : List String)
deriving DecidableEq, Repr

/-- A Python dict as an insertion-ordered association list. -/
abbrev Metadata := List (String × MetaVal)

/-- `d[k] = v`: overwrite in place if the key exists, else append. -/
def dictInsert (m : Metadata) (k : String) (v : MetaVal) : Metadata :=
  if m.any (fun p => p.1 = k) then
    m.map (fun p => if p.1 = k then (k, v) else p)
  else m ++ [(k, v)]

/-- `d.update(other)`: every key of `other` is written into `d`
(overwriting existing values, appending new keys in order). -/
def dictUpdate (m other : Metadata) : Metadata :=
  other.foldl (fun acc p => dictInsert acc p.1 p.2) m

/-- The entry dict shape produced by the module:
`{timestamp, level, message, metadata, rawData}`. -/
structure LogEntry where
  timestamp : Option String
  level : Option String
  message : String
  metadata : Metadata
  rawData : String
deriving DecidableEq, Repr

/-- One row of the structured CSV artifact a template-mining engine
produces (`Content`, `EventId`, `EventTemplate`). -/
structure MLRow where
  content : String
  eventId : String
  eventTemplate : String
deriving DecidableEq, Repr

/-! ## Field extraction -/

/-- The timestamp loop shared verbatim by
`extract_structured_fields_from_ml_content` and `_extract_timestamp`:
first pattern that `re.search` finds wins, taking group 1 when the
pattern has a group and the whole match otherwise. -/
def searchFirstTs (content : String) : Option String :=
  timestamp_patterns.findSome? (fun p =>
    (reSearch false p content).map (fun m =>
      if hasGroupRe p then (getCap 1 m.2).getD "" else m.1))

/-- The level canonicalization chain
(WARN/WARNING→WARN, ERR/ERROR→ERROR, CRIT/CRITICAL/FATAL→FATAL,
DBG/DEBUG→DEBUG, INF/INFO→INFO, otherwise pass through). -/
def canonLevel (lvl : String) : String :=
  if lvl = "WARN" || lvl = "WARNING" then "WARN"
  else if lvl = "ERR" || lvl = "ERROR" then "ERROR"
  else if lvl = "CRIT" || lvl = "CRITICAL" || lvl = "FATAL" then "FATAL"
  else if lvl = "DBG" || lvl = "DEBUG" then "DEBUG"
  else if lvl = "INF" || lvl = "INFO" then "INFO"
  else lvl

/-- The level loop shared verbatim by
`extract_structured_fields_from_ml_content` and `_extract_level`
(`re.IGNORECASE`, `group(1).upper()`, canonicalized). -/
def searchFirstLevel (content : String) : Option String :=
  level_patterns.findSome? (fun p =>
    (reSearch true p content).map (fun m => canonLevel (upperStr ((getCap 1 m.2).getD ""))))

/-- The 23-pattern metadata `findall` loop of
`extract_structured_fields_from_ml_content`: a single match is stored as
a string, several as a list. -/
def mlMetadata (content : String) (base : Metadata) : Metadata :=
  metadata_patterns.foldl (fun md pr =>
    match reFindAll true pr.1 content with
    | [] => md
    | [m] => dictInsert md pr.2 (MetaVal.str m)
    | ms => dictInsert md pr.2 (MetaVal.list ms)) base

/-- `EnhancedMLParser.extract_structured_fields_from_ml_content`. -/
def extract_structured_fields_from_ml_content (content template : String) : LogEntry :=
  { timestamp :=
      match searchFirstTs content with
      | some ts_str => normalize_timestamp ts_str
      | none => none,
    level := searchFirstLevel content,
    message := content,
    metadata := mlMetadata content
      [("ml_template", MetaVal.str template), ("ml_confidence", MetaVal.num (mkRat 8 10))],
    rawData := content }

/-- `EnhancedMLParser._extract_timestamp` (same patterns and group logic
as the structured extraction). -/
def extract_timestamp (line : String) : Option String :=
  match searchFirstTs line with
  | some ts_str => normalize_timestamp ts_str
  | none => none

/-- `EnhancedMLParser._extract_level`. -/
def extract_level (line : String) : Option String :=
  searchFirstLevel line

/-- `EnhancedMLParser.fallback_parsing`: one record per non-blank line;
blank lines are skipped; the line itself is message, template and
rawData. -/
def fallback_parsing (lines : List String) : List LogEntry :=
  lines.filterMap (fun line =>
    if pyStrip line = "" then none
    else some
      { timestamp := extract_timestamp line,
        level := extract_level line,
        message := line,
        metadata := [("ml_template", MetaVal.str line),
          ("ml_confidence", MetaVal.num (mkRat 5 10)),
          ("parsing_method", MetaVal.str "regex_fallback")],
        rawData := line })

/-- `EnhancedMLParser.convert_ml_results_to_entries`: one entry per
dataframe row (the `original_lines` argument is unused, as in the
source). -/
def convert_ml_results_to_entries (rows : List MLRow) (original_lines : List String) :
    List LogEntry :=
  rows.map (fun row => extract_structured_fields_from_ml_content row.content row.eventTemplate)

/-! ## Characteristic analysis and algorithm selection -/

/-- The characteristics dict computed by `detect_log_characteristics`
(machine floats modelled as rationals). -/
structure Characteristics where
  total_lines : Nat
  avg_line_length : Rat
  unique_lines : Nat
  duplicate_ratio : Rat
  has_timestamps : Bool
  has_ips : Bool
  has_hex : Bool
  has_uuids : Bool
  has_json : Bool
  has_structured : Bool
deriving DecidableEq, Repr

/-- `EnhancedMLParser.detect_log_characteristics`.  The Python body
divides by `len(lines)` for `avg_line_length` and `duplicate_ratio`
without a guard, so an empty batch raises `ZeroDivisionError`: that fault
is modelled by `none`. -/
def detect_log_characteristics (lines : List String) : Option Characteristics :=
  if lines.length = 0 then none
  else some
    { total_lines := lines.length,
      avg_line_length := ratDiv ((lines.map String.length).sum : Rat) (lines.length : Rat),
      unique_lines := lines.dedup.length,
      duplicate_ratio := ratSub 1 (ratDiv (lines.dedup.length : Rat) (lines.length : Rat)),
      has_timestamps := lines.any (fun l => reSearchB false date_re l),
      has_ips := lines.any (fun l => reSearchB false ip_re l),
      has_hex := lines.any (fun l => reSearchB false hex8_re l),
      has_uuids := lines.any (fun l => reSearchB false uuid_detect_re l),
      has_json := lines.any (fun l =>
        strStartsWith (pyStrip l) "\x7b" && strEndsWith (pyStrip l) "\x7d"),
      has_structured := lines.any (fun l => l.data.contains '=' || l.data.contains ':') }

/-- `EnhancedMLParser.select_best_algorithm`.  The third rule divides
`unique_lines` by `characteristics.get('total_lines', 1)`; since the
analyzer always supplies the `total_lines` key, the `.get` default of 1
never applies, and `total_lines == 0` raises `ZeroDivisionError`
(modelled by `none`). -/
def select_best_algorithm (c : Characteristics) : Option String :=
  if c.has_json then some "drain"
  else if c.duplicate_ratio > mkRat 7 10 then some "spell"
  else if c.total_lines = 0 then none
  else if ratDiv (c.unique_lines : Rat) (c.total_lines : Rat) > mkRat 8 10 then some "logmine"
  else if c.has_timestamps && c.has_ips then some "iplom"
  else if c.has_hex || c.has_uuids then some "logcluster"
  else some "drain"

/-! ## The template-mining adapter -/

/-- `[line.strip() for line in lines if line.strip()]`. -/
def nonEmptyTrimmed (lines : List String) : List String :=
  lines.filterMap (fun l => if pyStrip l = "" then none else some (pyStrip l))

/-- `EnhancedMLParser.parse_with_ml_algorithm`.  The external engine
(selected by name, configured, run over a scratch directory) is
abstracted as `engine : List String → Option (List MLRow)`: `some rows`
is a produced structured artifact, `none` covers both "the engine
raised" and "no output artifact", which the source recovers identically
by `fallback_parsing` over the trimmed lines. -/
def parse_with_ml_algorithm (engine : List String → Option (List MLRow))
    (lines : List String) : List LogEntry :=
  let non_empty_lines := nonEmptyTrimmed lines
  if non_empty_lines = [] then []
  else
    match engine non_empty_lines with
    | some rows => convert_ml_results_to_entries rows non_empty_lines
    | none => fallback_parsing non_empty_lines

/-! ## The multiline stitcher -/

/-- The `stack_trace_patterns` of `_is_continuation_line`, in source
order; each is applied with `re.match` against `message.strip()` (so the
whitespace-anchored ones can never fire there, as in the source). -/
def stack_trace_patterns : List Re :=
  [ rstr "Traceback (most recent call last):",
    rcat [rplus rws, rstr "File \"", .star .anyc, rstr "\", line ", dplus, rstr ", in ",
      .star .anyc],
    rcat [rplus rws, rstr "File \"", .star .anyc, rstr "\", line ", dplus],
    rcat [rplus rws, .star .anyc],
    rcat [rplus (.cls Char.isAlpha), rstr "Error:"],
    rcat [rplus (.cls Char.isAlpha), rstr "Exception:"],
    rcat [.star rws, rstr "at ", .star .anyc],
    rcat [.star rws, rstr "Caused by:"],
    rcat [.star rws, .anyc, .anyc, .anyc, .lit ' ', dplus, rstr " more"],
    rcat [.star rws, rstr "Suppressed:"],
    rcat [.star rws, rstr "raise ", .star .anyc],
    rcat [.star rws, rstr "Exception:"],
    rcat [.star rws, rstr "RuntimeError:"],
    rcat [.star rws, rstr "ValueError:"],
    rcat [.star rws, rstr "TypeError:"],
    rcat [.star rws, rstr "AttributeError:"],
    rcat [.star rws, rstr "IndexError:"],
    rcat [.star rws, rstr "KeyError:"],
    rcat [.star rws, rstr "ImportError:"],
    rcat [.star rws, rstr "ModuleNotFoundError:"],
    rcat [.star rws, rstr "FileNotFoundError:"],
    rcat [.star rws, rstr "PermissionError:"],
    rcat [.star rws, rstr "TimeoutError:"],
    rcat [.star rws, rstr "ConnectionError:"],
    rcat [.star rws, rstr "OSError:"],
    rcat [.star rws, rstr "IOError:"] ]

/-- The `continuation_indicators` list, searched (case-insensitively, via
`message.lower()`) as substrings. -/
def continuation_indicators : List String :=
  ["...", "continued", "more", "stack trace", "caused by", "suppressed", "nested exception",
   "traceback", "exception", "error:", "failed", "failed:"]

/-- Python: `^\s*[A-Z][a-z]+Error:` (applied to the raw message). -/
def tailErr_re : Re :=
  rcat [.star rws, .cls Char.isUpper, rplus (.cls Char.isLower), rstr "Error:"]

/-- Python: `^\s*[A-Z][a-z]+Exception:` (applied to the raw message). -/
def tailExc_re : Re :=
  rcat [.star rws, .cls Char.isUpper, rplus (.cls Char.isLower), rstr "Exception:"]

def startsWithSpaceOrTab (s : String) : Bool :=
  strStartsWith s " " || strStartsWith s "\t"

/-- `EnhancedMLParser._is_continuation_line`. -/
def is_continuation_line (message : String) : Bool :=
  if pyStrip message = "" then false
  else if stack_trace_patterns.any (fun r => reMatchB false r (pyStrip message)) then true
  else if startsWithSpaceOrTab message then true
  else if continuation_indicators.any (fun ind => substrIn ind (lowerStr message)) then true
  else if reMatchB false tailErr_re message then true
  else if reMatchB false tailExc_re message then true
  else false

/-- Python: `^\d{4}-\d{2}-\d{2} \d{2}:\d{2}:\d{2}$` (the
"message is essentially just a timestamp" shape). -/
def tsOnly_re : Re :=
  rcat [dN 4, .lit '-', dN 2, .lit '-', dN 2, .lit ' ', dN 2, .lit ':', dN 2, .lit ':', dN 2,
    .eos]

/-- `timestamp and level == 'ERROR' and ('Exception' in message or
'Error' in message or 'Traceback' in message)`. -/
def entryIsNewStackTrace (e : LogEntry) : Bool :=
  truthyS e.timestamp && e.level == some "ERROR" &&
    (substrIn "Exception" e.message || substrIn "Error" e.message ||
      substrIn "Traceback" e.message)

/-- `timestamp and (not message.strip() or message.strip() == timestamp
or re.match(r'^\d{4}-…$', message.strip()))`. -/
def entryIsTimestampOnly (e : LogEntry) : Bool :=
  truthyS e.timestamp &&
    (pyStrip e.message = "" || e.timestamp == some (pyStrip e.message) ||
      reMatchB false tsOnly_re (pyStrip e.message))

/-- The timestamp-only absorption guard on the next entry:
`next_entry and not next_entry.get('timestamp') and
next_entry.get('message', '').strip()`. -/
def absorbs (e nx : LogEntry) : Bool :=
  entryIsTimestampOnly e && !truthyS nx.timestamp && pyStrip nx.message ≠ ""

/-- The absorption mutation: the timestamp-only entry takes the next
entry's message, and its metadata is `dict.update`d with the next
entry's (skipped when that dict is falsy, i.e. empty, as in the source). -/
def absorbed (e nx : LogEntry) : LogEntry :=
  { e with
    message := nx.message,
    metadata := if nx.metadata ≠ [] then dictUpdate e.metadata nx.metadata else e.metadata }

/-- A continuation merge into `current_entry`: the (pre-absorption)
message is appended on a new line and the entry's metadata is
`dict.update`d in (overwriting existing keys). -/
def mergeInto (cur e2 : LogEntry) (msg : String) : LogEntry :=
  { cur with
    message := cur.message ++ "\n" ++ msg,
    metadata :=
      if e2.metadata ≠ [] then dictUpdate cur.metadata e2.metadata else cur.metadata }

/-- The `is_continuation` / `is_new_entry` / `is_new_stack_trace` flags,
all computed from the entry as it stood before any absorption (the
source binds `message`, `timestamp`, `level` first). -/
def stitchFlags (e : LogEntry) : Bool × Bool × Bool :=
  let isCont := is_continuation_line e.message
  (isCont, truthyS e.timestamp && truthyS e.level && !isCont, entryIsNewStackTrace e)

/-- One dispatch step of the stitching loop: returns the entries flushed
to the output and the new `current_entry`.  Mirrors the
`if is_new_stack_trace / elif is_continuation and current_entry /
elif is_new_entry / else` chain. -/
def stitchStep (cur : Option LogEntry) (e2 : LogEntry) (msg : String) (ts : Option String)
    (isCont isNewE isNST : Bool) : List LogEntry × Option LogEntry :=
  if isNST then (cur.toList, some e2)
  else
    match cur with
    | some c =>
        if isCont then ([], some (mergeInto c e2 msg))
        else if isNewE then ([c], some e2)
        else if isCont || !truthyS ts then ([], some (mergeInto c e2 msg))
        else ([c], some e2)
    | none => ([], some e2)

/-- Apply `stitchStep` with the flags of the original entry `orig` and
the (possibly absorption-modified) entry `e2`. -/
def stepEntry (cur : Option LogEntry) (orig e2 : LogEntry) :
    List LogEntry × Option LogEntry :=
  let f := stitchFlags orig
  stitchStep cur e2 orig.message orig.timestamp f.1 f.2.1 f.2.2

/-- The `while i < len(entries)` loop of `stitch_multiline_logs`,
including the look-ahead absorption that skips the next entry. -/
def stitchGo : Option LogEntry → List LogEntry → List LogEntry
  | cur, [] => cur.toList
  | cur, [e] =>
      let res := stepEntry cur e e
      res.1 ++ res.2.toList
  | cur, e :: nx :: rest =>
      if absorbs e nx then
        let res := stepEntry cur e (absorbed e nx)
        res.1 ++ stitchGo res.2 rest
      else
        let res := stepEntry cur e e
        res.1 ++ stitchGo res.2 (nx :: rest)

/-- `EnhancedMLParser.stitch_multiline_logs`. -/
def stitch_multiline_logs (entries : List LogEntry) : List LogEntry :=
  if entries = [] then entries
  else if entries.all (fun e => truthyS e.timestamp && truthyS e.level) then entries
  else stitchGo none entries

/-! ## The field propagator -/

/-- The body of `propagate_fields_across_entries`: a left-to-right pass
carrying `last_timestamp` / `last_level`; a truthy field updates the
carried value, a falsy one is overwritten by it. -/
def propGo (lt ll : Option String) : List LogEntry → List LogEntry
  | [] => []
  | e :: rest =>
      { e with
        timestamp := if truthyS e.timestamp then e.timestamp else lt,
        level := if truthyS e.level then e.level else ll } ::
        propGo (if truthyS e.timestamp then e.timestamp else lt)
          (if truthyS e.level then e.level else ll) rest

/-- `EnhancedMLParser.propagate_fields_across_entries`. -/
def propagate_fields_across_entries (entries : List LogEntry) : List LogEntry :=
  propGo none none entries

/-! ## The orchestrator -/

/-- The fixed fallback list of `parse_logs_intelligently`. -/
def fallback_algorithms : List String := ["drain", "spell", "logcluster"]

/-- The `for algo in fallback_algorithms: if algo != best_algorithm`
loop: first algorithm producing a non-empty entry list wins. -/
def tryFallbacks (engines : String → List String → Option (List MLRow)) (best : String)
    (lines : List String) : List String → Option (List LogEntry)
  | [] => none
  | algo :: rest =>
      if algo = best then tryFallbacks engines best lines rest
      else
        let entries := parse_with_ml_algorithm (engines algo) lines
        if entries ≠ [] then some entries else tryFallbacks engines best lines rest

/-- `EnhancedMLParser.parse_logs_intelligently`, parameterized by the
external engines (`engines name` is the engine the name selects).
`none` models an uncaught fault (the analyzer's and selector's divisions
are outside any `try`). -/
def parse_logs_intelligently (engines : String → List String → Option (List MLRow))
    (lines : List String) : Option (List LogEntry) :=
  if lines = [] then some []
  else
    match detect_log_characteristics lines with
    | none => none
    | some ch =>
        match select_best_algorithm ch with
        | none => none
        | some best =>
            let entries := parse_with_ml_algorithm (engines best) lines
            if entries ≠ [] then
              some (stitch_multiline_logs (propagate_fields_across_entries entries))
            else
              match tryFallbacks engines best lines fallback_algorithms with
              | some entries2 =>
                  some (stitch_multiline_logs (propagate_fields_across_entries entries2))
              | none =>
                  some (stitch_multiline_logs (propagate_fields_across_entries
                    (fallback_parsing lines)))

/-! ## A rule-list reading of the selector (for the refinement theorem) -/

/-- The selector's decision procedure written as the spec words it: an
ordered list of (guard, strategy) rules with a default.  A guard returns
`none` when evaluating it faults. -/
def evalRules : List ((Characteristics → Option Bool) × String) → String →
    Characteristics → Option String
  | [], dflt, _ => some dflt
  | (g, name) :: rest, dflt, c =>
      match g c with
      | none => none
      | some true => some name
      | some false => evalRules rest dflt c

/-- The selector's ordered rules: JSON → drain; high redundancy → spell;
high diversity → logmine, with the diversity guard faulting when
`total_lines = 0`; timestamps-and-IPs → iplom; hex-or-UUIDs →
logcluster. -/
def selectRuleList : List ((Characteristics → Option Bool) × String) :=
  [ (fun c => some c.has_json, "drain"),
    (fun c => some (decide (c.duplicate_ratio > mkRat 7 10)), "spell"),
    (fun c =>
      if c.total_lines = 0 then none
      else some (decide (ratDiv (c.unique_lines : Rat) (c.total_lines : Rat) > mkRat 8 10)),
      "logmine"),
    (fun c => some (c.has_timestamps && c.has_ips), "iplom"),
    (fun c => some (c.has_hex || c.has_uuids), "logcluster") ]

/-- First-match-wins evaluation of `selectRuleList` with default drain. -/
def select_spec (c : Characteristics) : Option String :=
  evalRules selectRuleList "drain" c

/-! ## Shared helper lemmas -/

theorem convert_length (rows : List MLRow) (lines : List String) :
    (convert_ml_results_to_entries rows lines).length = rows.length := by
  simp [convert_ml_results_to_entries]

theorem nonEmptyTrimmed_eq_nil (lines : List String) (h : ∀ l ∈ lines, pyStrip l = "") :
    nonEmptyTrimmed lines = [] := by
  simp only [nonEmptyTrimmed, List.filterMap_eq_nil_iff]
  intro l hl
  simp [h l hl]

theorem fallback_parsing_blank (lines : List String) (h : ∀ l ∈ lines, pyStrip l = "") :
    fallback_parsing lines = [] := by
  simp only [fallback_parsing, List.filterMap_eq_nil_iff]
  intro l hl
  simp [h l hl]

theorem parse_with_ml_blank (engine : List String → Option (List MLRow))
    (lines : List String) (h : ∀ l ∈ lines, pyStrip l = "") :
    parse_with_ml_algorithm engine lines = [] := by
  unfold parse_with_ml_algorithm
  simp [nonEmptyTrimmed_eq_nil lines h]

/-! ## Claim C1: the characteristic analyzer on an empty batch -/

/-- C1 counterexample: on the empty batch `detect_log_characteristics`
does not return a snapshot at all — the unguarded division
`sum(len(line) for line in lines) / len(lines)` raises
`ZeroDivisionError` (modelled by `none`/`isSome = false`), so the claim
that it returns zero ratios and false flags without faulting is false. -/
theorem detect_empty_batch_faults :
    (detect_log_characteristics []).isSome = false := by
  decide

/-- C1 (amended): the analyzer faults on the empty batch, but for every
non-empty batch it returns a snapshot without faulting, with
`total_lines` the batch size and the derived ratios well defined
(`0 ≤ duplicate_ratio < 1`, `0 ≤ avg_line_length`). -/
theorem detect_nonempty_no_fault (lines : List String) (h : lines ≠ []) :
    ∃ c, detect_log_characteristics lines = some c ∧ c.total_lines = lines.length ∧
      0 ≤ c.duplicate_ratio ∧ c.duplicate_ratio < 1 ∧ 0 ≤ c.avg_line_length := by
  have hlen : ¬ lines.length = 0 := fun hl => h (List.length_eq_zero.mp hl)
  have hpos : (0 : Rat) < (lines.length : Rat) := by
    exact_mod_cast Nat.pos_of_ne_zero hlen
  have hded : lines.dedup.length ≤ lines.length := (List.dedup_sublist lines).length_le
  have hdpos : 0 < lines.dedup.length := by
    refine List.length_pos.mpr (fun hd => h ?_)
    exact (List.dedup_eq_nil lines).mp hd
  refine ⟨_, by unfold detect_log_characteristics; rw [if_neg hlen], rfl, ?_, ?_, ?_⟩
  · have h1 : (lines.dedup.length : Rat) / (lines.length : Rat) ≤ 1 :=
      (div_le_one hpos).mpr (by exact_mod_cast hded)
    show 0 ≤ ratSub 1 (ratDiv (lines.dedup.length : Rat) (lines.length : Rat))
    rw [ratSub_eq_sub, ratDiv_eq_div]
    linarith
  · have h2 : 0 < (lines.dedup.length : Rat) / (lines.length : Rat) :=
      div_pos (by exact_mod_cast hdpos) hpos
    show ratSub 1 (ratDiv (lines.dedup.length : Rat) (lines.length : Rat)) < 1
    rw [ratSub_eq_sub, ratDiv_eq_div]
    linarith
  · show 0 ≤ ratDiv ((lines.map String.length).sum : Rat) (lines.length : Rat)
    rw [ratDiv_eq_div]
    positivity

/-- C1 witness: the singleton batch `["ab"]` is analyzed without fault. -/
theorem detect_nonempty_no_fault_witness :
    ∃ c, detect_log_characteristics ["ab"] = some c ∧ c.total_lines = ["ab"].length ∧
      0 ≤ c.duplicate_ratio ∧ c.duplicate_ratio < 1 ∧ 0 ≤ c.avg_line_length :=
  detect_nonempty_no_fault ["ab"] (by decide)

/-! ## Claim C3: the algorithm selector -/

/-- The claim's own total-zero example: not JSON, low redundancy, but
timestamps and IPs present — the claim predicts the structured-system-log
strategy `iplom` (rule 3 "treated as false"). -/
def cx3 : Characteristics :=
  { total_lines := 0, avg_line_length := 0, unique_lines := 0, duplicate_ratio := 0,
    has_timestamps := true, has_ips := true, has_hex := false, has_uuids := false,
    has_json := false, has_structured := false }

/-- C3 counterexample: with `total_lines = 0` the selection faults
(`unique_lines / total_lines` raises `ZeroDivisionError`; the
`.get('total_lines', 1)` default applies only when the key is missing,
and the analyzer always supplies it) instead of treating rule 3 as false
and selecting `iplom` as the claim states. -/
theorem select_zero_total_faults :
    select_best_algorithm cx3 = none ∧ select_best_algorithm cx3 ≠ some "iplom" := by
  decide

/-- C3 (amended): the selector is the claimed ordered rule list with
first match winning — JSON → drain, `duplicate_ratio > 0.7` → spell,
`unique_lines / total_lines > 0.8` → logmine, timestamps-and-IPs →
iplom, hex-or-UUIDs → logcluster, default drain — except that the
diversity guard is *not* protected against `total_lines == 0`: reaching
rule 3 with a zero total faults rather than falling through. -/
theorem select_rule_list_refinement (c : Characteristics) :
    select_best_algorithm c = select_spec c := by
  rcases c with ⟨tl, avg, ul, dr, hts, hips, hhex, huu, hjson, hstr⟩
  cases hjson <;> cases hts <;> cases hips <;> cases hhex <;> cases huu <;>
    by_cases hd : dr > mkRat 7 10 <;> by_cases htl : tl = 0 <;>
      by_cases hr : ratDiv (ul : Rat) (tl : Rat) > mkRat 8 10 <;>
        simp [select_best_algorithm, select_spec, selectRuleList, evalRules, hd, htl, hr]

/-! ## Claim C8: the stitcher's no-op guard -/

/-- C8: when every entry has a (truthy) timestamp and level, stitching
returns the input list unchanged. -/
theorem stitch_noop_guard (entries : List LogEntry)
    (h : entries.all (fun e => truthyS e.timestamp && truthyS e.level) = true) :
    stitch_multiline_logs entries = entries := by
  simp [stitch_multiline_logs, h]

/-- C8 witness: a concrete fully-tagged batch passes through unchanged. -/
def w8 : LogEntry := ⟨some "2024-01-01T00:00:00", some "INFO", "alpha", [], "raw0"⟩

theorem stitch_noop_guard_witness :
    [w8].all (fun e => truthyS e.timestamp && truthyS e.level) = true ∧
      stitch_multiline_logs [w8] = [w8] :=
  ⟨by decide, stitch_noop_guard [w8] (by decide)⟩

/-! ## The stitcher's structural invariant

Every output record of `stitchGo` is a (message/metadata-modified) copy
of one input record, in order: projecting each record to its
(timestamp, level, rawData) triple, the output is a sublist of the
input.  Merging and absorption never change those three fields. -/

/-- The fields the stitching merge never touches. -/
def projTLR (e : LogEntry) : Option String × Option String × String :=
  (e.timestamp, e.level, e.rawData)

theorem projTLR_mergeInto (c e2 : LogEntry) (msg : String) :
    projTLR (mergeInto c e2 msg) = projTLR c := rfl

theorem projTLR_absorbed (e nx : LogEntry) : projTLR (absorbed e nx) = projTLR e := rfl

theorem stitchStep_proj (cur : Option LogEntry) (e2 : LogEntry) (msg : String)
    (ts : Option String) (a b c : Bool) :
    (((stitchStep cur e2 msg ts a b c).1 ++
        (stitchStep cur e2 msg ts a b c).2.toList).map projTLR).Sublist
      ((cur.toList ++ [e2]).map projTLR) := by
  rcases cur with _ | cu <;> cases a <;> cases b <;> cases c <;> cases hts : truthyS ts <;>
    simp [stitchStep, projTLR_mergeInto, hts, List.Sublist.refl, List.nil_sublist,
      List.cons_sublist_cons]

/-- Assembly step for the stitching induction: one processed entry
(`out` flushed, `cur2` the new current record) plus the recursive tail. -/
theorem sublist_assemble {α β : Type _} (f : α → β)
    {out cur2 restGo restIn restMid curL : List α} {ehead : α}
    (h1 : (restGo.map f).Sublist ((cur2 ++ restIn).map f))
    (h2 : ((out ++ cur2).map f).Sublist (curL.map f ++ [f ehead]))
    (hmid : restIn.Sublist restMid) :
    ((out ++ restGo).map f).Sublist ((curL ++ ehead :: restMid).map f) := by
  have s1 : ((out ++ restGo).map f).Sublist (out.map f ++ (cur2.map f ++ restIn.map f)) := by
    simp only [List.map_append]
    refine List.Sublist.append_left ?_ _
    simpa [List.map_append] using h1
  have s2 : (out.map f ++ (cur2.map f ++ restIn.map f)).Sublist
      ((curL.map f ++ [f ehead]) ++ restMid.map f) := by
    rw [← List.append_assoc]
    refine List.Sublist.append ?_ (hmid.map f)
    simpa [List.map_append] using h2
  have s3 : (curL.map f ++ [f ehead]) ++ restMid.map f = (curL ++ ehead :: restMid).map f := by
    simp
  rw [← s3]
  exact s1.trans s2

theorem stitchGo_proj_sublist :
    ∀ (n : Nat) (cur : Option LogEntry) (es : List LogEntry), es.length ≤ n →
      ((stitchGo cur es).map projTLR).Sublist ((cur.toList ++ es).map projTLR) := by
  intro n
  induction n with
  | zero =>
      intro cur es h
      have hnil : es = [] := List.length_eq_zero.mp (Nat.le_zero.mp h)
      subst hnil
      simp [stitchGo, List.Sublist.refl]
  | succ n ih =>
      intro cur es h
      match es with
      | [] => simp [stitchGo, List.Sublist.refl]
      | [e] =>
          have hs := stitchStep_proj cur e e.message e.timestamp (stitchFlags e).1
            (stitchFlags e).2.1 (stitchFlags e).2.2
          simpa [stitchGo, stepEntry] using hs
      | e :: nx :: rest =>
          have hlen : rest.length ≤ n := by
            simp only [List.length_cons] at h
            omega
          have hlen2 : (nx :: rest).length ≤ n := by
            simp only [List.length_cons] at h ⊢
            omega
          simp only [stitchGo]
          by_cases hab : absorbs e nx = true
          · rw [if_pos hab]
            have h2 := stitchStep_proj cur (absorbed e nx) e.message e.timestamp
              (stitchFlags e).1 (stitchFlags e).2.1 (stitchFlags e).2.2
            have h2' : (((stepEntry cur e (absorbed e nx)).1 ++
                (stepEntry cur e (absorbed e nx)).2.toList).map projTLR).Sublist
                (cur.toList.map projTLR ++ [projTLR e]) := by
              simpa [stepEntry, List.map_append, projTLR_absorbed] using h2
            exact sublist_assemble projTLR
              (ih (stepEntry cur e (absorbed e nx)).2 rest hlen) h2'
              ((List.Sublist.refl rest).cons nx)
          · rw [if_neg hab]
            have h2 := stitchStep_proj cur e e.message e.timestamp
              (stitchFlags e).1 (stitchFlags e).2.1 (stitchFlags e).2.2
            have h2' : (((stepEntry cur e e).1 ++
                (stepEntry cur e e).2.toList).map projTLR).Sublist
                (cur.toList.map projTLR ++ [projTLR e]) := by
              simpa [stepEntry, List.map_append] using h2
            exact sublist_assemble projTLR
              (ih (stepEntry cur e e).2 (nx :: rest) hlen2) h2'
              (List.Sublist.refl (nx :: rest))

/-- Projected to (timestamp, level, rawData), stitched output is a
sublist of the input (shared backbone of C5, C7, C10). -/
theorem stitch_proj_sublist_aux (entries : List LogEntry) :
    ((stitch_multiline_logs entries).map projTLR).Sublist (entries.map projTLR) := by
  unfold stitch_multiline_logs
  by_cases h0 : entries = []
  · rw [if_pos h0]
  · rw [if_neg h0]
    by_cases h1 : entries.all (fun e => truthyS e.timestamp && truthyS e.level) = true
    · rw [if_pos h1]
    · rw [if_neg h1]
      have hmain := stitchGo_proj_sublist entries.length none entries (Nat.le_refl _)
      simpa using hmain

/-! ## Claim C10: the stitcher only merges, preserving order -/

/-- C10: the stitcher returns at most as many records as it was given,
and the surviving records (projected to the merge-invariant fields
timestamp, level, rawData) appear in their original relative order: the
projected output is a sublist of the projected input. -/
theorem stitch_count_and_order (entries : List LogEntry) :
    ((stitch_multiline_logs entries).map projTLR).Sublist (entries.map projTLR) ∧
      (stitch_multiline_logs entries).length ≤ entries.length := by
  refine ⟨stitch_proj_sublist_aux entries, ?_⟩
  have hle := (stitch_proj_sublist_aux entries).length_le
  simpa using hle

/-! ## Claim C5: rawData under stitching -/

/-- A timestamped INFO line followed by an indented continuation
(`"  at foo"`), which the stitcher merges. -/
def ex5 : List LogEntry :=
  [⟨some "2024-01-01T00:00:00", some "INFO", "hello", [], "L0"⟩,
   ⟨none, none, "  at foo", [], "L1"⟩]

/-- C5 counterexample: the continuation is merged (single output record,
message concatenated), but its `rawData` is *not* appended — the
stitched record's rawData is `"L0"`, not the claimed newline-separated
concatenation `"L0\nL1"` of the original text of all source lines. -/
theorem stitch_rawData_not_concatenated :
    (stitch_multiline_logs ex5).map (fun e => e.message) = ["hello\n  at foo"] ∧
    (stitch_multiline_logs ex5).map (fun e => e.rawData) = ["L0"] ∧
    (stitch_multiline_logs ex5).map (fun e => e.rawData) ≠ ["L0" ++ "\n" ++ "L1"] := by
  decide

/-- C5 (amended): a merge appends only the message; `rawData` is never
extended, so every stitched record's rawData equals the rawData of a
single input record (its starting record) — the output rawData sequence
is a sublist of the input one, never a concatenation. -/
theorem stitch_rawData_from_single_line (entries : List LogEntry) :
    ((stitch_multiline_logs entries).map (fun e => e.rawData)).Sublist
      (entries.map (fun e => e.rawData)) := by
  have h := (stitch_proj_sublist_aux entries).map (fun t => t.2.2)
  simpa [List.map_map, Function.comp, projTLR] using h

/-! ## Claim C7: no post-pass level inheritance in the stitcher -/

/-- Two records that both start their own output record; the second has
a timestamp but no level. -/
def ex7 : List LogEntry :=
  [⟨some "2024-01-01T00:00:00", some "INFO", "alpha", [], "R0"⟩,
   ⟨some "2024-01-01T00:00:01", none, "beta", [], "R1"⟩]

/-- C7 counterexample: after stitching, output record 1 still lacks a
level although record 0 has `INFO` — no post-pass copies the preceding
record's level onto it, contradicting the claimed one-hop inheritance
pass. -/
theorem stitch_no_level_post_pass :
    (stitch_multiline_logs ex7).map (fun e => e.level) = [some "INFO", none] ∧
    (stitch_multiline_logs ex7).map (fun e => e.level) ≠ [some "INFO", some "INFO"] := by
  decide

/-- C7 (amended): the stitcher performs no level inheritance at all —
each output record keeps the level of the input record it started from
(the output level sequence is a sublist of the input one, so a missing
level is never filled in, even when the preceding output record has
one).  Level filling happens only before stitching, in
`propagate_fields_across_entries`, by a last-non-null-seen rule. -/
theorem stitch_levels_unchanged (entries : List LogEntry) :
    ((stitch_multiline_logs entries).map (fun e => e.level)).Sublist
      (entries.map (fun e => e.level)) := by
  have h := (stitch_proj_sublist_aux entries).map (fun t => t.2.1)
  simpa [List.map_map, Function.comp, projTLR] using h

/-! ## Claim C6: metadata merging semantics -/

/-- Lookup in a Python-dict association list (first matching key). -/
def metaLookup (k : String) : Metadata → Option MetaVal
  | [] => none
  | p :: rest => if p.1 = k then some p.2 else metaLookup k rest

def metaKeys (m : Metadata) : List String := m.map Prod.fst

theorem metaLookup_map_replace (k k' : String) (v : MetaVal) (m : Metadata) (hk : k' ≠ k) :
    metaLookup k (m.map (fun p => if p.1 = k' then (k', v) else p)) = metaLookup k m := by
  induction m with
  | nil => rfl
  | cons p rest ih =>
      by_cases hp : p.1 = k'
      · simp [metaLookup, hp, hk, ih]
      · simp [metaLookup, hp, ih]

theorem metaLookup_replace_self (k : String) (v : MetaVal) (m : Metadata)
    (h : m.any (fun p => p.1 = k) = true) :
    metaLookup k (m.map (fun p => if p.1 = k then (k, v) else p)) = some v := by
  induction m with
  | nil => simp at h
  | cons p rest ih =>
      by_cases hp : p.1 = k
      · simp [metaLookup, hp]
      · simp only [List.any_cons, Bool.or_eq_true, decide_eq_true_eq] at h
        rcases h with h | h
        · exact absurd h hp
        · simp [metaLookup, hp, ih h]

theorem metaLookup_eq_none (k : String) (m : Metadata)
    (h : m.any (fun p => p.1 = k) = false) : metaLookup k m = none := by
  induction m with
  | nil => rfl
  | cons p rest ih =>
      simp only [List.any_cons, Bool.or_eq_false_iff, decide_eq_false_iff_not] at h
      simp [metaLookup, h.1, ih h.2]

theorem metaLookup_append (k : String) (m1 m2 : Metadata) :
    metaLookup k (m1 ++ m2) =
      match metaLookup k m1 with
      | some v => some v
      | none => metaLookup k m2 := by
  induction m1 with
  | nil => simp [metaLookup]
  | cons p rest ih => by_cases hp : p.1 = k <;> simp [metaLookup, hp, ih]

/-- One dict assignment: the inserted key's value wins, all other keys
keep their values. -/
theorem metaLookup_dictInsert (m : Metadata) (k' k : String) (v : MetaVal) :
    metaLookup k (dictInsert m k' v) = if k' = k then some v else metaLookup k m := by
  unfold dictInsert
  by_cases hany : m.any (fun p => p.1 = k') = true
  · rw [if_pos hany]
    by_cases hk : k' = k
    · subst hk
      rw [if_pos rfl, metaLookup_replace_self k' v m hany]
    · rw [if_neg hk, metaLookup_map_replace k k' v m hk]
  · rw [if_neg hany, metaLookup_append]
    by_cases hk : k' = k
    · subst hk
      rw [metaLookup_eq_none k' m (by rwa [Bool.not_eq_true] at hany)]
      simp [metaLookup]
    · cases hm : metaLookup k m <;> simp [metaLookup, hk, hm]

/-- `dict.update` semantics: the updating dict's value wins when its
keys are unique, and keys absent from it keep their old values. -/
theorem metaLookup_dictUpdate (m1 m2 : Metadata) (k : String)
    (h : (metaKeys m2).Nodup) :
    metaLookup k (dictUpdate m1 m2) =
      match metaLookup k m2 with
      | some v => some v
      | none => metaLookup k m1 := by
  induction m2 generalizing m1 with
  | nil => simp [dictUpdate, metaLookup]
  | cons p rest ih =>
      have hnd : (metaKeys rest).Nodup := (List.nodup_cons.mp h).2
      have hnotin : p.1 ∉ metaKeys rest := (List.nodup_cons.mp h).1
      have hupd : dictUpdate m1 (p :: rest) = dictUpdate (dictInsert m1 p.1 p.2) rest := rfl
      rw [hupd, ih _ hnd]
      by_cases hk : p.1 = k
      · subst hk
        have hrest : metaLookup p.1 rest = none := by
          refine metaLookup_eq_none _ _ ?_
          rw [List.any_eq_false]
          intro x hx
          simp only [decide_eq_true_eq]
          intro hx1
          exact hnotin (hx1 ▸ List.mem_map_of_mem Prod.fst hx)
        simp [metaLookup, hrest, metaLookup_dictInsert]
      · cases hm : metaLookup k rest <;> simp [metaLookup, hk, hm, metaLookup_dictInsert]

theorem metaKeys_map_replace (m : Metadata) (k : String) (v : MetaVal) :
    metaKeys (m.map (fun p => if p.1 = k then (k, v) else p)) = metaKeys m := by
  induction m with
  | nil => rfl
  | cons p rest ih =>
      by_cases hp : p.1 = k
      · simp only [List.map_cons, if_pos hp]
        simp only [metaKeys, List.map_cons] at ih ⊢
        rw [ih, hp]
      · simp only [List.map_cons, if_neg hp]
        simp only [metaKeys, List.map_cons] at ih ⊢
        rw [ih]

theorem metaKeys_nodup_dictInsert (m : Metadata) (k : String) (v : MetaVal)
    (h : (metaKeys m).Nodup) : (metaKeys (dictInsert m k v)).Nodup := by
  unfold dictInsert
  by_cases hany : m.any (fun p => p.1 = k) = true
  · rw [if_pos hany, metaKeys_map_replace]
    exact h
  · rw [if_neg hany]
    have hnotin : k ∉ metaKeys m := by
      intro hmem
      rcases List.mem_map.mp hmem with ⟨p, hp, hp1⟩
      have : m.any (fun p => p.1 = k) = true :=
        List.any_eq_true.mpr ⟨p, hp, by simp [hp1]⟩
      exact hany this
    have : metaKeys (m ++ [(k, v)]) = metaKeys m ++ [k] := by simp [metaKeys]
    rw [this]
    refine List.nodup_append.mpr ⟨h, List.nodup_singleton k, ?_⟩
    intro a ha hb
    rw [List.mem_singleton] at hb
    exact hnotin (hb ▸ ha)

theorem metaKeys_nodup_dictUpdate (m1 m2 : Metadata) (h : (metaKeys m1).Nodup) :
    (metaKeys (dictUpdate m1 m2)).Nodup := by
  induction m2 generalizing m1 with
  | nil => exact h
  | cons p rest ih => exact ih _ (metaKeys_nodup_dictInsert _ _ _ h)

/-- A timestamped INFO record with metadata `k = "old"`, followed by an
indented continuation carrying `k = "new"`. -/
def ex6 : List LogEntry :=
  [⟨some "2024-01-01T00:00:00", some "INFO", "alpha", [("k", MetaVal.str "old")], "R0"⟩,
   ⟨none, none, "  beta", [("k", MetaVal.str "new")], "R1"⟩]

/-- C6 counterexample: the stitcher merges the continuation's metadata
with `dict.update`, which *overwrites* the existing key: the merged
record carries `k = "new"`, so the claimed first-write-wins rule (the
existing value `"old"` surviving the merge) is false. -/
theorem stitch_metadata_overwrites :
    (stitch_multiline_logs ex6).map (fun e => e.metadata) = [[("k", MetaVal.str "new")]] ∧
    (stitch_multiline_logs ex6).map (fun e => e.metadata) ≠ [[("k", MetaVal.str "old")]] := by
  decide

/-- C6 (amended): the merge is `dict.update`, last write wins — a key
present in the continuation's metadata takes the continuation's value,
a key absent from it keeps the current record's value — and key
uniqueness is preserved (no duplicate keys are created). -/
theorem merge_metadata_last_write_wins (c e2 : LogEntry) (msg : String) (k : String)
    (h2 : (metaKeys e2.metadata).Nodup) :
    (metaLookup k (mergeInto c e2 msg).metadata =
      match metaLookup k e2.metadata with
      | some v => some v
      | none => metaLookup k c.metadata) ∧
    ((metaKeys c.metadata).Nodup → (metaKeys (mergeInto c e2 msg).metadata).Nodup) := by
  constructor
  · show metaLookup k
        (if e2.metadata ≠ [] then dictUpdate c.metadata e2.metadata else c.metadata) = _
    by_cases hne : e2.metadata ≠ []
    · rw [if_pos hne]
      exact metaLookup_dictUpdate c.metadata e2.metadata k h2
    · rw [if_neg hne]
      have hnil : e2.metadata = [] := not_not.mp hne
      simp [hnil, metaLookup]
  · intro h1
    show (metaKeys
        (if e2.metadata ≠ [] then dictUpdate c.metadata e2.metadata else c.metadata)).Nodup
    by_cases hne : e2.metadata ≠ []
    · rw [if_pos hne]
      exact metaKeys_nodup_dictUpdate c.metadata e2.metadata h1
    · rw [if_neg hne]
      exact h1

/-- Concrete records for the C6 witness. -/
def w6a : LogEntry :=
  ⟨some "2024-01-01T00:00:00", some "INFO", "alpha", [("k", MetaVal.str "old")], "R0"⟩

def w6b : LogEntry := ⟨none, none, "  beta", [("k", MetaVal.str "new")], "R1"⟩

theorem merge_metadata_last_write_wins_witness :
    (metaKeys w6b.metadata).Nodup ∧
      metaLookup "k" (mergeInto w6a w6b "  beta").metadata = some (MetaVal.str "new") := by
  refine ⟨by decide, ?_⟩
  have h := (merge_metadata_last_write_wins w6a w6b "  beta" "k" (by decide)).1
  rw [h]
  decide

/-! ## Claim C4: the field propagator -/

/-- The "last seen" value of a tracked field over a prefix, starting
from `init`: the final carried value of the propagator's pass. -/
def lastSeen (f : LogEntry → Option String) (init : Option String)
    (es : List LogEntry) : Option String :=
  es.foldl (fun acc e => if truthyS (f e) then f e else acc) init

/-- Index-wise characterization of the propagator's pass: record `i`
keeps its own truthy timestamp/level and otherwise receives the last
truthy value seen strictly before it; nothing else changes. -/
theorem propGo_getElem? (lt ll : Option String) (es : List LogEntry) (i : Nat) :
    (propGo lt ll es)[i]? = (es[i]?).map (fun e =>
      { e with
        timestamp := if truthyS e.timestamp then e.timestamp
          else lastSeen (fun x => x.timestamp) lt (es.take i),
        level := if truthyS e.level then e.level
          else lastSeen (fun x => x.level) ll (es.take i) }) := by
  induction es generalizing lt ll i with
  | nil => simp [propGo]
  | cons e rest ih =>
      cases i with
      | zero => simp [propGo, lastSeen]
      | succ i =>
          simp only [propGo, List.getElem?_cons_succ, List.take_succ_cons]
          rw [ih]
          cases hr : rest[i]? <;> simp [lastSeen, List.foldl_cons]

/-- Record 0 carries `trace_id=X` in its metadata; records 1..4 lack it. -/
def ex4 : List LogEntry :=
  [⟨none, none, "m0", [("trace_id", MetaVal.str "X")], "r0"⟩,
   ⟨none, none, "m1", [], "r1"⟩,
   ⟨none, none, "m2", [], "r2"⟩,
   ⟨none, none, "m3", [], "r3"⟩,
   ⟨none, none, "m4", [], "r4"⟩]

/-- C4 counterexample: after propagation, records 1..4 still do not
carry `trace_id` (their metadata is untouched) — the propagator's
tracked set does not include `trace_id` (nor any other correlation
key), contradicting the claim that records 1..4 end up with
`trace_id=X`. -/
theorem propagate_no_trace_id :
    (propagate_fields_across_entries ex4).map (fun e => metaLookup "trace_id" e.metadata) =
      [some (MetaVal.str "X"), none, none, none, none] := by
  decide

/-- C4 (amended): the propagator's single left-to-right pass tracks only
`timestamp` and `level`: each record keeps its own truthy value or is
filled with the last truthy value seen before it, and every record's
metadata (hence `trace_id` and all other correlation keys) is left
unchanged. -/
theorem propagate_tracks_only_timestamp_level (es : List LogEntry) (i : Nat) :
    ((propagate_fields_across_entries es)[i]?).map (fun e => e.metadata) =
      (es[i]?).map (fun e => e.metadata) ∧
    ((propagate_fields_across_entries es)[i]?).map (fun e => e.timestamp) =
      (es[i]?).map (fun e => if truthyS e.timestamp then e.timestamp
        else lastSeen (fun x => x.timestamp) none (es.take i)) ∧
    ((propagate_fields_across_entries es)[i]?).map (fun e => e.level) =
      (es[i]?).map (fun e => if truthyS e.level then e.level
        else lastSeen (fun x => x.level) none (es.take i)) := by
  unfold propagate_fields_across_entries
  rw [propGo_getElem?]
  cases h : es[i]? <;> simp

/-! ## Claim C2: the template-mining adapter and degenerate collapse -/

/-- An engine that collapses every input to a single row. -/
def c2row : MLRow := ⟨"alpha beta", "", ""⟩

def c2engine : List String → Option (List MLRow) := fun _ => some [c2row]

/-- C2 counterexample: for the two-line input `["alpha", "beta"]` the
engine returns a single row and the adapter *accepts* it — the
successful output is one collapsed record, not one record per surviving
input line (2); there is no degenerate-collapse guard and no fallback to
the field extractor. -/
theorem adapter_single_row_collapse :
    (parse_with_ml_algorithm c2engine ["alpha", "beta"]).length = 1 ∧
    (nonEmptyTrimmed ["alpha", "beta"]).length = 2 := by
  constructor
  · show (parse_with_ml_algorithm c2engine ["alpha", "beta"]).length = 1
    simp only [parse_with_ml_algorithm]
    rw [show nonEmptyTrimmed ["alpha", "beta"] = ["alpha", "beta"] from rfl]
    rw [if_neg (by decide)]
    exact convert_length [c2row] ["alpha", "beta"]
  · decide

/-- C2 (amended): the adapter falls back to the field extractor only
when the engine raises or produces no output artifact; a successful
engine result is converted as-is, one record per engine *row* — so a
single-row result for multi-line input yields a single collapsed
record. -/
theorem adapter_row_count (engine : List String → Option (List MLRow))
    (lines : List String) (rows : List MLRow)
    (h1 : nonEmptyTrimmed lines ≠ [])
    (h2 : engine (nonEmptyTrimmed lines) = some rows) :
    (parse_with_ml_algorithm engine lines).length = rows.length := by
  simp only [parse_with_ml_algorithm]
  rw [if_neg h1, h2]
  exact convert_length rows (nonEmptyTrimmed lines)

/-- C2 witness: the collapsing engine on a one-line input. -/
theorem adapter_row_count_witness :
    nonEmptyTrimmed ["alpha"] ≠ [] ∧
      (parse_with_ml_algorithm c2engine ["alpha"]).length = 1 :=
  ⟨by decide, adapter_row_count c2engine ["alpha"] [c2row] (by decide) rfl⟩

/-! ## Claim C9: the orchestrator on empty and blank-only input -/

theorem detect_some_total (lines : List String) (h : lines ≠ []) :
    ∃ c, detect_log_characteristics lines = some c ∧ c.total_lines = lines.length := by
  have hlen : ¬ lines.length = 0 := fun hl => h (List.length_eq_zero.mp hl)
  exact ⟨_, by unfold detect_log_characteristics; rw [if_neg hlen], rfl⟩

theorem select_isSome (c : Characteristics) (h : c.total_lines ≠ 0) :
    (select_best_algorithm c).isSome := by
  unfold select_best_algorithm
  split_ifs <;> simp_all

theorem tryFallbacks_blank (engines : String → List String → Option (List MLRow))
    (best : String) (lines : List String) (h : ∀ l ∈ lines, pyStrip l = "") :
    ∀ algos, tryFallbacks engines best lines algos = none := by
  intro algos
  induction algos with
  | nil => rfl
  | cons a rest ih =>
      simp only [tryFallbacks]
      by_cases hb : a = best
      · rw [if_pos hb]
        exact ih
      · rw [if_neg hb]
        simp [parse_with_ml_blank _ _ h, ih]

/-- C9: for every empty input — the empty line list or a list whose
lines are all blank — the orchestrator returns the empty sequence and
raises no error, whatever the external engines do. -/
theorem orchestrator_empty_input (engines : String → List String → Option (List MLRow))
    (lines : List String) (h : ∀ l ∈ lines, pyStrip l = "") :
    parse_logs_intelligently engines lines = some [] := by
  by_cases h0 : lines = []
  · simp [parse_logs_intelligently, h0]
  · obtain ⟨c, hc, htl⟩ := detect_some_total lines h0
    have hne : c.total_lines ≠ 0 := by
      rw [htl]
      exact fun hz => h0 (List.length_eq_zero.mp hz)
    obtain ⟨best, hbest⟩ := Option.isSome_iff_exists.mp (select_isSome c hne)
    simp only [parse_logs_intelligently]
    rw [if_neg h0]
    simp only [hc, hbest]
    simp [parse_with_ml_blank _ _ h, tryFallbacks_blank engines best lines h,
      fallback_parsing_blank lines h, propagate_fields_across_entries, propGo,
      stitch_multiline_logs]

/-- C9 witness: a fully failing engine set on a blank-only batch. -/
def engines0 : String → List String → Option (List MLRow) := fun _ _ => none

theorem orchestrator_empty_input_witness :
    (∀ l ∈ ["", "   "], pyStrip l = "") ∧
      parse_logs_intelligently engines0 ["", "   "] = some [] :=
  ⟨by decide, orchestrator_empty_input engines0 ["", "   "] (by decide)⟩

end Autolog
